import Mathlib

/-!
Verification of the IT-KMITL advisor knowledge-graph pipeline.

Shallow embedding of the Python sources:
  * `app.py`            — schema normalizer (`get_paper_count`, `get_all_papers`),
                          cache loading (`load_scopus_cache`), the topic→professor
                          reverse index and the per-topic paper filter of the
                          "Filter by Topic" page;
  * `graph_builder.py`  — `KnowledgeGraphBuilder` (`add_professor_node`,
                          `add_topic_node`, `add_paper_node`, `add_edge`,
                          `build_professor_graph`);
  * `scopus_client.py`  — the pure record-shaping core of `get_author_data`;
  * `fetch_all_scopus_data.py` — aggregate metadata of `save_scopus_cache`;
  * `config.py`         — `NODE_SIZES`, `EDGE_COLORS`.

Python dictionaries with a fixed field vocabulary are embedded as structures of
`Option` fields (`none` = key absent); dictionaries with dynamic string keys
(`topic_groups`, the caches, the topic index) are embedded as insertion-ordered
association lists.  Purely presentational node/edge attributes (colors, fonts,
HTML tooltips, physics flags) are not modelled; the attributes the spec talks
about (label, type, size, shape) are.
-/

/-- One paper dictionary: `{title, year, doi?, citations}`; every field can be
absent in a raw record, the code reads each through `.get` with a default. -/
structure Paper where
  title : Option String := none
  year : Option String := none
  doi : Option String := none
  citations : Option Nat := none
deriving DecidableEq, Repr

/-- One professor record as stored in the caches.  `none` models an absent key
(the code tests presence with `'papers' in professor_data` etc.).
`topic_groups` is the shape-B mapping, kept in insertion order. -/
structure ProfRecord where
  scopus_id : Option String := none
  name : Option String := none
  thai_name : Option String := none
  image_url : Option String := none
  profile_url : Option String := none
  scopus_url : Option String := none
  topics : Option (List String) := none
  papers : Option (List Paper) := none
  topic_groups : Option (List (String × List Paper)) := none
  citation_count : Option Nat := none
  document_count : Option Nat := none
deriving DecidableEq, Repr

/-! ### Schema Normalizer (`app.py`, `get_paper_count` / `get_all_papers`) -/

/-- `app.py` `get_paper_count`: flat `papers` list first, else sum of the
`topic_groups` bucket sizes, else `0`. -/
def get_paper_count (professor_data : ProfRecord) : Nat :=
  match professor_data.papers with
  | some ps => ps.length
  | none =>
    match professor_data.topic_groups with
    | some tg => (tg.map (fun kv => kv.2.length)).sum
    | none => 0

/-- `app.py` `get_all_papers`: the flat `papers` list first, else the
concatenation of the `topic_groups` buckets in insertion order, else `[]`. -/
def get_all_papers (professor_data : ProfRecord) : List Paper :=
  match professor_data.papers with
  | some ps => ps
  | none =>
    match professor_data.topic_groups with
    | some tg => (tg.map Prod.snd).flatten
    | none => []

/-! ### Decimal rendering of the synthetic-ID indices

The builder forms node identifiers with f-strings (`f"topic_{prof_id}_{i}"`);
`natStr` is the decimal representation an f-string prints for a `Nat`. -/

/-- Decimal representation of a natural number (what `f"{i}"` prints). -/
def natStr (n : Nat) : String :=
  if n = 0 then "0" else ⟨(Nat.digits 10 n).reverse.map Nat.digitChar⟩

/-- Python string `.lower()` (per-character lowercasing). -/
def lowerStr (s : String) : String := ⟨s.data.map Char.toLower⟩

/-- Python truthiness of an optional string (`None` and `""` are falsy). -/
def pyTruthy (o : Option String) : Bool :=
  match o with
  | none => false
  | some s => !s.isEmpty

/-- The attributes of a node that the spec speaks about; purely visual
payload (colors, fonts, tooltips) is not modelled. -/
structure NodeAttrs where
  label : String
  node_type : String
  size : Nat
  shape : String
deriving DecidableEq, Repr

/-- A graph node: identifier plus attributes (`none` for a bare node that
`add_edge` auto-created). -/
structure GNode where
  id : String
  attrs : Option NodeAttrs
deriving DecidableEq, Repr

/-- A graph edge as `add_edge` stores it. -/
structure GEdge where
  source : String
  target : String
  title : String
  width : Nat
  color : String
deriving DecidableEq, Repr


structure Graph where
  nodes : List GNode
  edges : List GEdge
deriving DecidableEq, Repr


def Graph.nodeIds (g : Graph) : List String := g.nodes.map GNode.id

/-- `nx.Graph.add_node`: update attributes in place if the id exists,
otherwise append. -/
def addNode (g : Graph) (i : String) (a : NodeAttrs) : Graph :=
  if i ∈ g.nodeIds then
    { g with nodes := g.nodes.map fun n => if n.id = i then { n with attrs := some a } else n }
  else
    { g with nodes := g.nodes ++ [{ id := i, attrs := some a }] }

/-- `nx.Graph.add_edge` implicitly adds missing endpoints as attribute-less
nodes. -/
def addBareNode (g : Graph) (i : String) : Graph :=
  if i ∈ g.nodeIds then g else { g with nodes := g.nodes ++ [{ id := i, attrs := none }] }

/-- Whether a stored edge joins the unordered pair `{u, v}`. -/
def edgeMatches (e : GEdge) (u v : String) : Bool :=
  (e.source == u && e.target == v) || (e.source == v && e.target == u)

/-- `config.py` `EDGE_COLORS` dictionary. -/
def EDGE_COLORS (k : String) : Option String :=
  if k = "expertise" then some ("#94a3b8")
  else if k = "authored" then some ("#cbd5e1")
  else none

/-- `config.py` `NODE_SIZES` dictionary. -/
def NODE_SIZES (k : String) : Nat :=
  if k = "professor" then 60 else if k = "topic" then 45 else 35

/-- `KnowledgeGraphBuilder.add_edge`: resolve the color
(`EDGE_COLORS.get(edge_type.lower(), '#94a3b8')` when none is given), then
insert the edge into the undirected graph. -/
def add_edge (g : Graph) (source target edge_type : String) (width : Nat)
    (color : Option String) : Graph :=
  let c := color.getD ((EDGE_COLORS (lowerStr edge_type)).getD ("#94a3b8"))
  let g2 := addBareNode (addBareNode g source) target
  let newEdge : GEdge :=
    { source := source
      target := target
      title := edge_type
      width := width
      color := c }
  if g2.edges.any (fun e => edgeMatches e source target) then
    { g2 with edges := g2.edges.map fun e =>
        if edgeMatches e source target then
          { e with title := edge_type, width := width, color := c }
        else e }
  else
    { g2 with edges := g2.edges ++ [newEdge] }

/-- `KnowledgeGraphBuilder.add_professor_node`. -/
def add_professor_node (g : Graph) (professor_id name : String)
    (image_url : Option String) : Graph :=
  addNode g professor_id
    { label := name
      node_type := "professor"
      size := NODE_SIZES ("professor")
      shape := if pyTruthy image_url then "circularImage" else "dot" }

/-- `KnowledgeGraphBuilder.add_topic_node`. -/
def add_topic_node (g : Graph) (topic_id topic_name : String) : Graph :=
  addNode g topic_id
    { label := topic_name
      node_type := "topic"
      size := NODE_SIZES ("topic")
      shape := "dot" }

/-- The attributes `add_paper_node` computes: the label is the title truncated
to 30 characters, the size is `min(NODE_SIZES['paper'] + citations // 3, 50)`. -/
def paperNodeAttrs (title : String) (citations : Nat) : NodeAttrs :=
  { label := if title.length > 30 then title.take 30 ++ "..." else title
    node_type := "paper"
    size := min (NODE_SIZES ("paper") + citations / 3) 50
    shape := "dot" }

/-- `KnowledgeGraphBuilder.add_paper_node` (the `year` and `doi` arguments
only feed the unmodelled tooltip/url payload). -/
def add_paper_node (g : Graph) (paper_id title : String) (year : String)
    (citations : Nat) (doi : String) : Graph :=
  addNode g paper_id (paperNodeAttrs title citations)

/-- Synthetic topic-node identifier `f"topic_{prof_id}_{i}"`. -/
def topicNodeId (prof_id : String) (i : Nat) : String :=
  "topic_" ++ prof_id ++ "_" ++ natStr i

/-- Synthetic paper-node identifier `f"paper_{prof_id}_{i}"`. -/
def paperNodeId (prof_id : String) (i : Nat) : String :=
  "paper_" ++ prof_id ++ "_" ++ natStr i

/-- The `for i, topic in enumerate(topics)` loop of `build_professor_graph`:
one topic node plus one `expertise` edge per topic, in list order. -/
def addTopics (prof_id : String) : Graph → List String → Nat → Graph
  | g, [], _ => g
  | g, topic :: rest, i =>
    addTopics prof_id
      (add_edge (add_topic_node g (topicNodeId prof_id i) topic)
        prof_id (topicNodeId prof_id i) ("expertise") 4 (EDGE_COLORS ("expertise")))
      rest (i + 1)

/-- The `for i, paper in enumerate(papers)` loop of `build_professor_graph`:
one paper node plus one `authored` edge per paper, in list order. -/
def addPapers (prof_id : String) : Graph → List Paper → Nat → Graph
  | g, [], _ => g
  | g, paper :: rest, i =>
    addPapers prof_id
      (add_edge
        (add_paper_node g (paperNodeId prof_id i) (paper.title.getD ("Untitled"))
          (paper.year.getD ("")) (paper.citations.getD 0) (paper.doi.getD ("")))
        prof_id (paperNodeId prof_id i) ("authored") 2 (EDGE_COLORS ("authored")))
      rest (i + 1)

/-- `KnowledgeGraphBuilder.build_professor_graph`, up to the in-memory graph
it assembles (the PyVis/HTML rendering of that graph is presentation glue and
is not modelled). -/
def build_professor_graph (professor_data : ProfRecord) : Graph :=
  let prof_id := professor_data.scopus_id.getD ("prof_1")
  let prof_name := professor_data.name.getD ("Unknown")
  let g0 := add_professor_node { nodes := [], edges := [] } prof_id prof_name
    professor_data.image_url
  let g1 := addTopics prof_id g0 (professor_data.topics.getD []) 0
  addPapers prof_id g1 (professor_data.papers.getD []) 0

/-- The edge `build_professor_graph` inserts for a topic. -/
def expertiseEdge (prof_id tid : String) : GEdge :=
  { source := prof_id
    target := tid
    title := "expertise"
    width := 4
    color := "#94a3b8" }

/-- The edge `build_professor_graph` inserts for a paper. -/
def authoredEdge (prof_id pid : String) : GEdge :=
  { source := prof_id
    target := pid
    title := "authored"
    width := 2
    color := "#cbd5e1" }

/-- The `metadata` block of an aggregate cache file (all keys optional,
read through `.get` with defaults). -/
structure Metadata where
  fetched_at : Option String := none
  professor_count : Option Nat := none
  total_papers : Option Nat := none
  total_citations : Option Nat := none
deriving DecidableEq, Repr

/-- A parsed aggregate cache file: `{metadata: {...}, professors: {...}}`,
both keys read through `.get` with `{}` as default. -/
structure CacheFile where
  metadata : Option Metadata := none
  professors : Option (List (String × ProfRecord)) := none
deriving DecidableEq, Repr

/-- `app.py` `load_scopus_cache`.  The file system is abstracted as the two
optional parsed files (`none` = the file does not exist): prefer the
topic-grouped aggregate `professors_by_topics.json`, fall back to the flat
`professors_scopus_data.json`, otherwise signal "no data" (`none`, the
embedding of the `(None, None)` return). -/
def load_scopus_cache (topicsFile scopusFile : Option CacheFile) :
    Option (List (String × ProfRecord) × Metadata) :=
  match topicsFile with
  | some cache_data => some (cache_data.professors.getD [], cache_data.metadata.getD {})
  | none =>
    match scopusFile with
    | some cache_data => some (cache_data.professors.getD [], cache_data.metadata.getD {})
    | none => none

/-- `fetch_all_scopus_data.py` `save_scopus_cache`: the metadata block written
next to the professor mapping (`now` stands for `datetime.now().isoformat()`). -/
def save_cache_metadata (now : String) (cache : List (String × ProfRecord)) : Metadata :=
  { fetched_at := some now
    professor_count := some cache.length
    total_papers := some ((cache.map (fun kv => (kv.2.papers.getD []).length)).sum)
    total_citations := some ((cache.map (fun kv => kv.2.citation_count.getD 0)).sum) }

/-! ### Query/Filter Layer (`app.py`, "Filter by Topic" page) -/

/-- Whether `needle` occurs as a contiguous sublist of `hay`
(Python `needle in hay` on strings, at the character-list level). -/
def subList (needle : List Char) : List Char → Bool
  | [] => needle.isEmpty
  | c :: t => needle.isPrefixOf (c :: t) || subList needle t

/-- Python `selected_topic.lower() in title.lower()`. -/
def pyInStr (needle hay : String) : Bool :=
  subList (lowerStr needle).data (lowerStr hay).data

/-- First-match lookup in an insertion-ordered dictionary
(`d[k]` / `k in d` on a Python dict embedded as an association list). -/
def lookupA {α : Type} : List (String × α) → String → Option α
  | [], _ => none
  | kv :: rest, k => if kv.1 = k then some kv.2 else lookupA rest k

/-- Result of the per-topic paper filtering of the "Filter by Topic" page:
either the `topic_groups` branch (the selected bucket plus the remaining
buckets shown under "other topics"), or the flat fallback branch (papers whose
title contains the topic case-insensitively, plus the remaining papers). -/
inductive FilterResult where
  | grouped (topic_papers : List Paper) (other_topics : List (String × List Paper))
  | flat (related_papers other_papers : List Paper)
deriving DecidableEq, Repr

/-- The flat branch of the filter (`app.py` lines 700–725): split
`get_all_papers` by case-insensitive substring match of the selected topic
against each `title`. -/
def flatTopicFilter (prof_data : ProfRecord) (selected_topic : String) : FilterResult :=
  FilterResult.flat
    ((get_all_papers prof_data).filter
      (fun p => pyInStr selected_topic (p.title.getD (""))))
    ((get_all_papers prof_data).filter
      (fun p => !pyInStr selected_topic (p.title.getD (""))))

/-- The per-topic paper filtering of the "Filter by Topic" page (`app.py`
lines 669–705): if the record has `topic_groups` containing the selected
topic, take that bucket and list the other buckets; otherwise fall back to
the flat substring filter. -/
def filter_by_topic (prof_data : ProfRecord) (selected_topic : String) : FilterResult :=
  match prof_data.topic_groups with
  | some tg =>
    if (lookupA tg selected_topic).isSome then
      FilterResult.grouped ((lookupA tg selected_topic).getD [])
        (tg.filter (fun kv => decide (kv.1 ≠ selected_topic)))
    else flatTopicFilter prof_data selected_topic
  | none => flatTopicFilter prof_data selected_topic

/-! ### Topic → professor reverse index (`app.py` lines 582–594) -/

/-- One entry of the `all_topics` index (the dictionary appended per professor
per topic). -/
structure TopicEntry where
  scopus_id : String
  name : String
  thai_name : String
  citation_count : Nat
  paper_count : Nat
  prof_data : ProfRecord
deriving DecidableEq, Repr

/-- The entry the "Filter by Topic" page appends for one professor. -/
def mkTopicEntry (sid : String) (prof : ProfRecord) : TopicEntry :=
  { scopus_id := sid
    name := prof.name.getD ("Unknown")
    thai_name := prof.thai_name.getD ("")
    citation_count := prof.citation_count.getD 0
    paper_count := get_paper_count prof
    prof_data := prof }

/-- `all_topics[topic].append(entry)` preceded by
`if topic not in all_topics: all_topics[topic] = []`. -/
def addEntry (idx : List (String × List TopicEntry)) (topic : String)
    (e : TopicEntry) : List (String × List TopicEntry) :=
  if (lookupA idx topic).isSome then
    idx.map (fun kv => if kv.1 = topic then (kv.1, kv.2 ++ [e]) else kv)
  else
    idx ++ [(topic, [e])]

/-- The `all_topics` reverse index: for every professor of the loaded mapping
and every topic of its `topics` list, append that professor's entry. -/
def all_topics (professors : List (String × ProfRecord)) :
    List (String × List TopicEntry) :=
  professors.foldl
    (fun idx kv =>
      (kv.2.topics.getD []).foldl (fun idx2 topic => addEntry idx2 topic (mkTopicEntry kv.1 kv.2)) idx)
    []

/-- The bucket the index holds for a topic (empty when the topic is absent). -/
def bucketOf (idx : List (String × List TopicEntry)) (topic : String) : List TopicEntry :=
  (lookupA idx topic).getD []

/-! ### Bibliographic client (`scopus_client.py` `get_author_data`) -/

/-- One entry of the Scopus search result (`search-results.entry`):
`hasError` models the presence of an `error` key, the other fields are the
optional raw attributes the client reads. -/
structure SEntry where
  hasError : Bool := false
  creator : Option String := none
  title : Option String := none
  coverDate : Option String := none
  doi : Option String := none
  citedby : Option Nat := none
deriving DecidableEq, Repr

/-- `entry.get('prism:coverDate', '')[:4] if entry.get('prism:coverDate') else ''`
(Python truthiness: `None` and `""` both fall to `''`). -/
def entryYear (e : SEntry) : String :=
  match e.coverDate with
  | some s => if s.isEmpty then "" else s.take 4
  | none => ""

/-- The paper dictionary `get_author_data` builds from one valid entry. -/
def entryPaper (e : SEntry) : Paper :=
  { title := some (e.title.getD ("Untitled"))
    year := some (entryYear e)
    doi := some (e.doi.getD (""))
    citations := some (e.citedby.getD 0) }

/-- The author summary `get_author_data` assembles (the keyword-extracted
`topics` list is presentation-independent data no claim touches and is not
modelled). -/
structure AuthorData where
  name : String
  document_count : Nat
  citation_count : Nat
  papers : List Paper
deriving DecidableEq, Repr

/-- The record-shaping core of `scopus_client.py` `get_author_data`, given the
parsed entry list (`[]` when the response carries no `search-results.entry`):
filter out error entries, count them as `document_count`, total the
`citedby-count`s as `citation_count`, build one paper per valid entry, and
return `None` when no document remains. -/
def get_author_data (entries : List SEntry) : Option AuthorData :=
  let valid_entries := entries.filter (fun e => !e.hasError)
  let author_data : AuthorData :=
    { name :=
        match valid_entries with
        | [] => ""
        | e :: _ => e.creator.getD ("")
      document_count := valid_entries.length
      citation_count := (valid_entries.map (fun e => e.citedby.getD 0)).sum
      papers := valid_entries.map entryPaper }
  if author_data.document_count > 0 then some author_data else none

/-- A record as `fetch_all_scopus_data.py` stores it after a successful fetch:
`papers`, `citation_count` and `document_count` are copied verbatim from a
`get_author_data` result. -/
def fetchedFrom (r : ProfRecord) : Prop :=
  ∃ entries a, get_author_data entries = some a ∧
    r.papers = some a.papers ∧
    r.citation_count = some a.citation_count ∧
    r.document_count = some a.document_count

/-! ### Concrete inputs used by the witnesses and the counterexample -/

def witnessPapers : List Paper :=
  [{ title := some ("X"), citations := some 50 },
   { title := some ("Y"), citations := some 2 }]


def witnessRecord : ProfRecord :=
  { scopus_id := some ("123")
    name := some ("A")
    topics := some ["AI", "Security"]
    papers := some witnessPapers }


def nlpBucket : List Paper :=
  [{ title := some ("NLP one") },
   { title := some ("NLP two") },
   { title := some ("NLP three") }]


def webBucket : List Paper :=
  [{ title := some ("Web one") },
   { title := some ("Web two") }]


def iotBucket : List Paper :=
  [{ title := some ("IoT one") },
   { title := some ("IoT two") },
   { title := some ("IoT three") }]


def shapeBGroups : List (String × List Paper) :=
  [("NLP", nlpBucket), ("Web", webBucket), ("IoT", iotBucket)]

/-- A professor record that stores its papers only in `topic_groups`
(shape B), with 3 papers under `"NLP"` and 5 under the two other topics. -/
def shapeBRecord : ProfRecord :=
  { name := some ("B")
    topic_groups := some shapeBGroups }

/-- A record carrying both a flat `papers` list and `topic_groups`. -/
def bothRecord : ProfRecord :=
  { papers := some witnessPapers
    topic_groups := some shapeBGroups }

/-- A record carrying neither paper field. -/
def emptyRecord : ProfRecord := {}


def witnessEntries : List SEntry :=
  [{ title := some ("X"), citedby := some 50 },
   { citedby := some 2 }]


def witnessAuthor : AuthorData :=
  { name := ""
    document_count := 2
    citation_count := 52
    papers :=
      [{ title := some ("X"), year := some (""), doi := some (""), citations := some 50 },
       { title := some ("Untitled"), year := some (""), doi := some (""), citations := some 2 }] }

/-- The record the fetch pipeline would store for `witnessEntries`. -/
def fetchedRecordW : ProfRecord :=
  { papers := some witnessAuthor.papers
    citation_count := some 52
    document_count := some 2 }


def witnessCache : List (String × ProfRecord) := [("123", fetchedRecordW)]

/-! ### Claim theorems -/

/-! ### Theorems -/


theorem digitChar_inj : ∀ a, a < 10 → ∀ b, b < 10 →
    Nat.digitChar a = Nat.digitChar b → a = b := by decide


theorem map_digitChar_cancel : ∀ {l : List Nat}, (∀ d ∈ l, d < 10) →
    l.map ((fun c : Char => c.toNat - 48) ∘ Nat.digitChar) = l := by
  intro l
  induction l with
  | nil => intro _; rfl
  | cons a t ih =>
    intro hl
    have ha : a < 10 := hl a (List.mem_cons_self a t)
    have ht : ∀ d ∈ t, d < 10 := fun d hd => hl d (List.mem_cons_of_mem a hd)
    have hhead : ((fun c : Char => c.toNat - 48) ∘ Nat.digitChar) a = a := by
      interval_cases a <;> rfl
    simp only [List.map_cons, ih ht, hhead]


theorem digits_map_digitChar_inj {m n : Nat}
    (h : (Nat.digits 10 m).map Nat.digitChar = (Nat.digits 10 n).map Nat.digitChar) :
    m = n := by
  have hm : ∀ d ∈ Nat.digits 10 m, d < 10 := fun d hd =>
    Nat.digits_lt_base (by norm_num) hd
  have hn : ∀ d ∈ Nat.digits 10 n, d < 10 := fun d hd =>
    Nat.digits_lt_base (by norm_num) hd
  -- recover the digit lists by mapping each char back to its value
  have h2 := congrArg (List.map (fun c : Char => c.toNat - 48)) h
  rw [List.map_map, List.map_map] at h2
  rw [map_digitChar_cancel hm, map_digitChar_cancel hn] at h2
  calc m = Nat.ofDigits 10 (Nat.digits 10 m) := (Nat.ofDigits_digits 10 m).symm
    _ = Nat.ofDigits 10 (Nat.digits 10 n) := by rw [h2]
    _ = n := Nat.ofDigits_digits 10 n


theorem natStr_zero_ne {n : Nat} (hn : n ≠ 0) : "0" ≠ (⟨(Nat.digits 10 n).reverse.map Nat.digitChar⟩ : String) := by
  intro h
  cases hdig : Nat.digits 10 n with
  | nil => exact (Nat.digits_ne_nil_iff_ne_zero.mpr hn) hdig
  | cons d tl =>
    cases tl with
    | nil =>
      rw [hdig] at h
      have hd : ['0'] = [Nat.digitChar d] := congrArg String.data h
      have hchar : Nat.digitChar d = '0' := by
        injection hd with h1 _
        exact h1.symm
      have hmem : d ∈ Nat.digits 10 n := by
        rw [hdig]; exact List.mem_cons_self d []
      have hd10 : d < 10 := Nat.digits_lt_base (by norm_num) hmem
      have hd0 : d = 0 := digitChar_inj d hd10 0 (by norm_num) (by simpa using hchar)
      have h1 := (Nat.ofDigits_digits 10 n).symm
      rw [hdig, hd0] at h1
      exact hn (by simpa [Nat.ofDigits] using h1)
    | cons d2 tl2 =>
      rw [hdig] at h
      have hd : ['0'] = ((d :: d2 :: tl2).reverse.map Nat.digitChar) := congrArg String.data h
      have hlen := congrArg List.length hd
      simp only [List.length_cons, List.length_nil, List.length_map,
        List.length_reverse] at hlen
      omega


theorem natStr_inj {m n : Nat} (h : natStr m = natStr n) : m = n := by
  unfold natStr at h
  by_cases hm : m = 0 <;> by_cases hn : n = 0
  · omega
  · exact absurd ((if_pos hm).symm.trans (h.trans (if_neg hn))) (natStr_zero_ne hn)
  · exact absurd ((if_pos hn).symm.trans (h.symm.trans (if_neg hm))) (natStr_zero_ne hm)
  · rw [if_neg hm, if_neg hn] at h
    have hd : (Nat.digits 10 m).reverse.map Nat.digitChar
        = (Nat.digits 10 n).reverse.map Nat.digitChar := congrArg String.data h
    rw [List.map_reverse, List.map_reverse] at hd
    exact digits_map_digitChar_inj (List.reverse_injective hd)

/-! ### Graph Assembler (`graph_builder.py`, `KnowledgeGraphBuilder`)

The NetworkX `nx.Graph` is embedded as insertion-ordered node and edge lists:
`add_node` on an existing identifier overwrites its attributes in place,
otherwise appends; `add_edge` first auto-inserts missing endpoints as bare
nodes (NetworkX semantics), then overwrites an existing edge between the same
unordered pair or appends a new one. -/

/-! ### Distinctness of the synthetic node identifiers -/

theorem topicNodeId_inj {p : String} {i j : Nat}
    (h : topicNodeId p i = topicNodeId p j) : i = j := by
  unfold topicNodeId at h
  have hd := congrArg String.data h
  simp only [String.data_append] at hd
  exact natStr_inj (String.ext (List.append_cancel_left hd))


theorem paperNodeId_inj {p : String} {i j : Nat}
    (h : paperNodeId p i = paperNodeId p j) : i = j := by
  unfold paperNodeId at h
  have hd := congrArg String.data h
  simp only [String.data_append] at hd
  exact natStr_inj (String.ext (List.append_cancel_left hd))


theorem topicNodeId_ne_prof (p : String) (i : Nat) : topicNodeId p i ≠ p := by
  intro h
  have hl := congrArg String.length h
  unfold topicNodeId at hl
  simp only [String.length_append] at hl
  have h6 : ("topic_" : String).length = 6 := rfl
  have h1 : ("_" : String).length = 1 := rfl
  omega


theorem paperNodeId_ne_prof (p : String) (i : Nat) : paperNodeId p i ≠ p := by
  intro h
  have hl := congrArg String.length h
  unfold paperNodeId at hl
  simp only [String.length_append] at hl
  have h6 : ("paper_" : String).length = 6 := rfl
  have h1 : ("_" : String).length = 1 := rfl
  omega


theorem topicNodeId_head (p : String) (i : Nat) :
    (topicNodeId p i).data.head? = some 't' := by
  unfold topicNodeId
  rw [String.data_append, String.data_append, String.data_append]
  rfl


theorem paperNodeId_head (p : String) (i : Nat) :
    (paperNodeId p i).data.head? = some 'p' := by
  unfold paperNodeId
  rw [String.data_append, String.data_append, String.data_append]
  rfl


theorem topicNodeId_ne_paperNodeId (p q : String) (i j : Nat) :
    topicNodeId p i ≠ paperNodeId q j := by
  intro h
  have ht := topicNodeId_head p i
  rw [h, paperNodeId_head] at ht
  exact absurd ht (by decide)

/-! ### Behaviour of the elementary graph operations -/

theorem addNode_nodeIds_mem {g : Graph} {i : String} (a : NodeAttrs)
    (h : i ∈ g.nodeIds) : (addNode g i a).nodeIds = g.nodeIds := by
  unfold addNode
  rw [if_pos h]
  show (g.nodes.map _).map GNode.id = g.nodes.map GNode.id
  rw [List.map_map]
  apply List.map_congr_left
  intro n _
  by_cases hn : n.id = i
  · simp [Function.comp, hn]
  · simp [Function.comp, hn]


theorem addNode_nodeIds_not_mem {g : Graph} {i : String} (a : NodeAttrs)
    (h : i ∉ g.nodeIds) : (addNode g i a).nodeIds = g.nodeIds ++ [i] := by
  unfold addNode
  rw [if_neg h]
  show (g.nodes ++ _).map GNode.id = g.nodes.map GNode.id ++ [i]
  rw [List.map_append]
  rfl


theorem addNode_edges (g : Graph) (i : String) (a : NodeAttrs) :
    (addNode g i a).edges = g.edges := by
  unfold addNode
  split <;> rfl


theorem addBareNode_mem {g : Graph} {i : String} (h : i ∈ g.nodeIds) :
    addBareNode g i = g := by
  unfold addBareNode
  rw [if_pos h]


theorem add_edge_spec {g : Graph} {u v : String} (ty : String) (w : Nat) (c : String)
    (hu : u ∈ g.nodeIds) (hv : v ∈ g.nodeIds)
    (hfresh : ∀ e ∈ g.edges, edgeMatches e u v = false) :
    (add_edge g u v ty w (some c)).nodes = g.nodes ∧
    (add_edge g u v ty w (some c)).edges = g.edges ++
      [{ source := u, target := v, title := ty, width := w, color := c }] := by
  unfold add_edge
  rw [addBareNode_mem hu, addBareNode_mem hv]
  have hany : g.edges.any (fun e => edgeMatches e u v) = false := by
    rw [List.any_eq_false]
    intro e he
    simp [hfresh e he]
  simp [hany]


theorem edgeMatches_false {e : GEdge} {u v : String}
    (h1 : e.source = u) (h2 : e.target ≠ v) (h3 : u ≠ v) :
    edgeMatches e u v = false := by
  simp [edgeMatches, h1, h2, h3]


theorem range_map_shift {α : Type} (f : Nat → α) (i n : Nat) :
    (List.range (n + 1)).map (fun k => f (i + k))
      = f i :: (List.range n).map (fun k => f (i + 1 + k)) := by
  rw [List.range_succ_eq_map, List.map_cons, List.map_map]
  simp only [Nat.add_zero]
  congr 1
  apply List.map_congr_left
  intro k _
  show f (i + (k + 1)) = f (i + 1 + k)
  congr 1
  omega


theorem range_map_shift_topic (p : String) (i n : Nat) :
    (List.range (n + 1)).map (fun k => topicNodeId p (i + k))
      = topicNodeId p i :: (List.range n).map (fun k => topicNodeId p (i + 1 + k)) :=
  range_map_shift (fun j => topicNodeId p j) i n


theorem range_map_shift_texp (p : String) (i n : Nat) :
    (List.range (n + 1)).map (fun k => expertiseEdge p (topicNodeId p (i + k)))
      = expertiseEdge p (topicNodeId p i)
        :: (List.range n).map (fun k => expertiseEdge p (topicNodeId p (i + 1 + k))) :=
  range_map_shift (fun j => expertiseEdge p (topicNodeId p j)) i n


theorem range_map_shift_paper (p : String) (i n : Nat) :
    (List.range (n + 1)).map (fun k => paperNodeId p (i + k))
      = paperNodeId p i :: (List.range n).map (fun k => paperNodeId p (i + 1 + k)) :=
  range_map_shift (fun j => paperNodeId p j) i n


theorem range_map_shift_pauth (p : String) (i n : Nat) :
    (List.range (n + 1)).map (fun k => authoredEdge p (paperNodeId p (i + k)))
      = authoredEdge p (paperNodeId p i)
        :: (List.range n).map (fun k => authoredEdge p (paperNodeId p (i + 1 + k))) :=
  range_map_shift (fun j => authoredEdge p (paperNodeId p j)) i n


theorem addTopics_spec (prof_id : String) (ts : List String) :
    ∀ (g : Graph) (i : Nat),
    prof_id ∈ g.nodeIds →
    (∀ j, i ≤ j → topicNodeId prof_id j ∉ g.nodeIds) →
    (∀ e ∈ g.edges, e.source = prof_id ∧ e.target ∈ g.nodeIds) →
    (addTopics prof_id g ts i).nodeIds
        = g.nodeIds ++ (List.range ts.length).map (fun k => topicNodeId prof_id (i + k)) ∧
    (addTopics prof_id g ts i).edges
        = g.edges ++ (List.range ts.length).map
            (fun k => expertiseEdge prof_id (topicNodeId prof_id (i + k))) := by
  induction ts with
  | nil => intro g i _ _ _; simp [addTopics]
  | cons t rest ih =>
    intro g i hpid hfresh hedges
    have htfresh : topicNodeId prof_id i ∉ g.nodeIds := hfresh i (Nat.le_refl i)
    have hne_pid : topicNodeId prof_id i ≠ prof_id := topicNodeId_ne_prof prof_id i
    have hg1_ids : (add_topic_node g (topicNodeId prof_id i) t).nodeIds
        = g.nodeIds ++ [topicNodeId prof_id i] := addNode_nodeIds_not_mem _ htfresh
    have hg1_edges : (add_topic_node g (topicNodeId prof_id i) t).edges = g.edges :=
      addNode_edges g _ _
    have hu : prof_id ∈ (add_topic_node g (topicNodeId prof_id i) t).nodeIds := by
      rw [hg1_ids]; exact List.mem_append_left _ hpid
    have hv : topicNodeId prof_id i ∈ (add_topic_node g (topicNodeId prof_id i) t).nodeIds := by
      rw [hg1_ids]; exact List.mem_append_right _ (List.mem_singleton_self _)
    have hef : ∀ e ∈ (add_topic_node g (topicNodeId prof_id i) t).edges,
        edgeMatches e prof_id (topicNodeId prof_id i) = false := by
      rw [hg1_edges]
      intro e he
      exact edgeMatches_false (hedges e he).1
        (fun hh => htfresh (hh ▸ (hedges e he).2)) (Ne.symm hne_pid)
    have hspec := add_edge_spec ("expertise") 4 ("#94a3b8") hu hv hef
    have hcol : EDGE_COLORS ("expertise") = some ("#94a3b8") := rfl
    simp only [addTopics]
    rw [hcol]
    have hg2_ids : (add_edge (add_topic_node g (topicNodeId prof_id i) t)
          prof_id (topicNodeId prof_id i) ("expertise") 4 (some ("#94a3b8"))).nodeIds
        = g.nodeIds ++ [topicNodeId prof_id i] := by
      rw [← hg1_ids]
      exact congrArg (fun ns => ns.map GNode.id) hspec.1
    have hg2_edges : (add_edge (add_topic_node g (topicNodeId prof_id i) t)
          prof_id (topicNodeId prof_id i) ("expertise") 4 (some ("#94a3b8"))).edges
        = g.edges ++ [expertiseEdge prof_id (topicNodeId prof_id i)] := by
      rw [hspec.2, hg1_edges]; rfl
    have hpid2 : prof_id ∈ (add_edge (add_topic_node g (topicNodeId prof_id i) t)
          prof_id (topicNodeId prof_id i) ("expertise") 4 (some ("#94a3b8"))).nodeIds := by
      rw [hg2_ids]; exact List.mem_append_left _ hpid
    have hfresh2 : ∀ j, i + 1 ≤ j → topicNodeId prof_id j ∉
        (add_edge (add_topic_node g (topicNodeId prof_id i) t)
          prof_id (topicNodeId prof_id i) ("expertise") 4 (some ("#94a3b8"))).nodeIds := by
      intro j hj
      rw [hg2_ids]
      intro hmem
      rcases List.mem_append.mp hmem with hmem1 | hmem2
      · exact hfresh j (by omega) hmem1
      · have : topicNodeId prof_id j = topicNodeId prof_id i := List.mem_singleton.mp hmem2
        have := topicNodeId_inj this
        omega
    have hedges2 : ∀ e ∈ (add_edge (add_topic_node g (topicNodeId prof_id i) t)
          prof_id (topicNodeId prof_id i) ("expertise") 4 (some ("#94a3b8"))).edges,
        e.source = prof_id ∧ e.target ∈ (add_edge (add_topic_node g (topicNodeId prof_id i) t)
          prof_id (topicNodeId prof_id i) ("expertise") 4 (some ("#94a3b8"))).nodeIds := by
      intro e he
      rw [hg2_edges] at he
      rw [hg2_ids]
      rcases List.mem_append.mp he with he1 | he2
      · exact ⟨(hedges e he1).1, List.mem_append_left _ (hedges e he1).2⟩
      · have : e = expertiseEdge prof_id (topicNodeId prof_id i) := List.mem_singleton.mp he2
        subst this
        exact ⟨rfl, List.mem_append_right _ (List.mem_singleton_self _)⟩
    have hrec := ih _ (i + 1) hpid2 hfresh2 hedges2
    constructor
    · rw [hrec.1, hg2_ids]
      simp only [List.length_cons]
      rw [range_map_shift_topic]
      simp [List.append_assoc]
    · rw [hrec.2, hg2_edges]
      simp only [List.length_cons]
      rw [range_map_shift_texp]
      simp [List.append_assoc]


theorem addPapers_spec (prof_id : String) (ps : List Paper) :
    ∀ (g : Graph) (i : Nat),
    prof_id ∈ g.nodeIds →
    (∀ j, i ≤ j → paperNodeId prof_id j ∉ g.nodeIds) →
    (∀ e ∈ g.edges, e.source = prof_id ∧ e.target ∈ g.nodeIds) →
    (addPapers prof_id g ps i).nodeIds
        = g.nodeIds ++ (List.range ps.length).map (fun k => paperNodeId prof_id (i + k)) ∧
    (addPapers prof_id g ps i).edges
        = g.edges ++ (List.range ps.length).map
            (fun k => authoredEdge prof_id (paperNodeId prof_id (i + k))) := by
  induction ps with
  | nil => intro g i _ _ _; simp [addPapers]
  | cons p rest ih =>
    intro g i hpid hfresh hedges
    have htfresh : paperNodeId prof_id i ∉ g.nodeIds := hfresh i (Nat.le_refl i)
    have hne_pid : paperNodeId prof_id i ≠ prof_id := paperNodeId_ne_prof prof_id i
    have hg1_ids : (add_paper_node g (paperNodeId prof_id i) (p.title.getD ("Untitled"))
          (p.year.getD ("")) (p.citations.getD 0) (p.doi.getD (""))).nodeIds
        = g.nodeIds ++ [paperNodeId prof_id i] := addNode_nodeIds_not_mem _ htfresh
    have hg1_edges : (add_paper_node g (paperNodeId prof_id i) (p.title.getD ("Untitled"))
          (p.year.getD ("")) (p.citations.getD 0) (p.doi.getD (""))).edges = g.edges :=
      addNode_edges g _ _
    have hu : prof_id ∈ (add_paper_node g (paperNodeId prof_id i) (p.title.getD ("Untitled"))
          (p.year.getD ("")) (p.citations.getD 0) (p.doi.getD (""))).nodeIds := by
      rw [hg1_ids]; exact List.mem_append_left _ hpid
    have hv : paperNodeId prof_id i ∈ (add_paper_node g (paperNodeId prof_id i)
          (p.title.getD ("Untitled")) (p.year.getD ("")) (p.citations.getD 0)
          (p.doi.getD (""))).nodeIds := by
      rw [hg1_ids]; exact List.mem_append_right _ (List.mem_singleton_self _)
    have hef : ∀ e ∈ (add_paper_node g (paperNodeId prof_id i) (p.title.getD ("Untitled"))
          (p.year.getD ("")) (p.citations.getD 0) (p.doi.getD (""))).edges,
        edgeMatches e prof_id (paperNodeId prof_id i) = false := by
      rw [hg1_edges]
      intro e he
      exact edgeMatches_false (hedges e he).1
        (fun hh => htfresh (hh ▸ (hedges e he).2)) (Ne.symm hne_pid)
    have hspec := add_edge_spec ("authored") 2 ("#cbd5e1") hu hv hef
    have hcol : EDGE_COLORS ("authored") = some ("#cbd5e1") := rfl
    simp only [addPapers]
    rw [hcol]
    have hg2_ids : (add_edge (add_paper_node g (paperNodeId prof_id i)
          (p.title.getD ("Untitled")) (p.year.getD ("")) (p.citations.getD 0)
          (p.doi.getD ("")))
          prof_id (paperNodeId prof_id i) ("authored") 2 (some ("#cbd5e1"))).nodeIds
        = g.nodeIds ++ [paperNodeId prof_id i] := by
      rw [← hg1_ids]
      exact congrArg (fun ns => ns.map GNode.id) hspec.1
    have hg2_edges : (add_edge (add_paper_node g (paperNodeId prof_id i)
          (p.title.getD ("Untitled")) (p.year.getD ("")) (p.citations.getD 0)
          (p.doi.getD ("")))
          prof_id (paperNodeId prof_id i) ("authored") 2 (some ("#cbd5e1"))).edges
        = g.edges ++ [authoredEdge prof_id (paperNodeId prof_id i)] := by
      rw [hspec.2, hg1_edges]; rfl
    have hpid2 : prof_id ∈ (add_edge (add_paper_node g (paperNodeId prof_id i)
          (p.title.getD ("Untitled")) (p.year.getD ("")) (p.citations.getD 0)
          (p.doi.getD ("")))
          prof_id (paperNodeId prof_id i) ("authored") 2 (some ("#cbd5e1"))).nodeIds := by
      rw [hg2_ids]; exact List.mem_append_left _ hpid
    have hfresh2 : ∀ j, i + 1 ≤ j → paperNodeId prof_id j ∉
        (add_edge (add_paper_node g (paperNodeId prof_id i)
          (p.title.getD ("Untitled")) (p.year.getD ("")) (p.citations.getD 0)
          (p.doi.getD ("")))
          prof_id (paperNodeId prof_id i) ("authored") 2 (some ("#cbd5e1"))).nodeIds := by
      intro j hj
      rw [hg2_ids]
      intro hmem
      rcases List.mem_append.mp hmem with hmem1 | hmem2
      · exact hfresh j (by omega) hmem1
      · have : paperNodeId prof_id j = paperNodeId prof_id i := List.mem_singleton.mp hmem2
        have := paperNodeId_inj this
        omega
    have hedges2 : ∀ e ∈ (add_edge (add_paper_node g (paperNodeId prof_id i)
          (p.title.getD ("Untitled")) (p.year.getD ("")) (p.citations.getD 0)
          (p.doi.getD ("")))
          prof_id (paperNodeId prof_id i) ("authored") 2 (some ("#cbd5e1"))).edges,
        e.source = prof_id ∧ e.target ∈ (add_edge (add_paper_node g (paperNodeId prof_id i)
          (p.title.getD ("Untitled")) (p.year.getD ("")) (p.citations.getD 0)
          (p.doi.getD ("")))
          prof_id (paperNodeId prof_id i) ("authored") 2 (some ("#cbd5e1"))).nodeIds := by
      intro e he
      rw [hg2_edges] at he
      rw [hg2_ids]
      rcases List.mem_append.mp he with he1 | he2
      · exact ⟨(hedges e he1).1, List.mem_append_left _ (hedges e he1).2⟩
      · have : e = authoredEdge prof_id (paperNodeId prof_id i) := List.mem_singleton.mp he2
        subst this
        exact ⟨rfl, List.mem_append_right _ (List.mem_singleton_self _)⟩
    have hrec := ih _ (i + 1) hpid2 hfresh2 hedges2
    constructor
    · rw [hrec.1, hg2_ids]
      simp only [List.length_cons]
      rw [range_map_shift_paper]
      simp [List.append_assoc]
    · rw [hrec.2, hg2_edges]
      simp only [List.length_cons]
      rw [range_map_shift_pauth]
      simp [List.append_assoc]


theorem build_professor_graph_eq (r : ProfRecord) :
    build_professor_graph r
      = addPapers (r.scopus_id.getD ("prof_1"))
          (addTopics (r.scopus_id.getD ("prof_1"))
            (add_professor_node { nodes := [], edges := [] }
              (r.scopus_id.getD ("prof_1")) (r.name.getD ("Unknown")) r.image_url)
            (r.topics.getD []) 0)
          (r.papers.getD []) 0 := rfl


theorem build_professor_graph_spec (r : ProfRecord) :
    (build_professor_graph r).nodeIds
      = r.scopus_id.getD ("prof_1")
        :: ((List.range (r.topics.getD []).length).map
              (fun k => topicNodeId (r.scopus_id.getD ("prof_1")) k)
          ++ (List.range (r.papers.getD []).length).map
              (fun k => paperNodeId (r.scopus_id.getD ("prof_1")) k)) ∧
    (build_professor_graph r).edges
      = (List.range (r.topics.getD []).length).map
          (fun k => expertiseEdge (r.scopus_id.getD ("prof_1"))
            (topicNodeId (r.scopus_id.getD ("prof_1")) k))
        ++ (List.range (r.papers.getD []).length).map
          (fun k => authoredEdge (r.scopus_id.getD ("prof_1"))
            (paperNodeId (r.scopus_id.getD ("prof_1")) k)) := by
  have hg0_ids : (add_professor_node { nodes := [], edges := [] }
      (r.scopus_id.getD ("prof_1")) (r.name.getD ("Unknown")) r.image_url).nodeIds
      = [r.scopus_id.getD ("prof_1")] := by
    have hnm : (r.scopus_id.getD ("prof_1")) ∉ (Graph.mk [] []).nodeIds := by
      simp [Graph.nodeIds]
    simpa using addNode_nodeIds_not_mem _ hnm
  have hg0_edges : (add_professor_node { nodes := [], edges := [] }
      (r.scopus_id.getD ("prof_1")) (r.name.getD ("Unknown")) r.image_url).edges = [] :=
    addNode_edges _ _ _
  have ht := addTopics_spec (r.scopus_id.getD ("prof_1")) (r.topics.getD [])
    (add_professor_node { nodes := [], edges := [] }
      (r.scopus_id.getD ("prof_1")) (r.name.getD ("Unknown")) r.image_url) 0
    (by rw [hg0_ids]; exact List.mem_singleton_self _)
    (by
      intro j _
      rw [hg0_ids]
      intro hmem
      exact topicNodeId_ne_prof _ j (List.mem_singleton.mp hmem))
    (by
      rw [hg0_edges]
      intro e he
      cases he)
  have hg1_ids := ht.1
  have hg1_edges := ht.2
  rw [hg0_ids] at hg1_ids
  rw [hg0_edges] at hg1_edges
  simp only [Nat.zero_add, List.nil_append] at hg1_ids hg1_edges
  have hpid1 : (r.scopus_id.getD ("prof_1")) ∈ (addTopics (r.scopus_id.getD ("prof_1"))
      (add_professor_node { nodes := [], edges := [] }
        (r.scopus_id.getD ("prof_1")) (r.name.getD ("Unknown")) r.image_url)
      (r.topics.getD []) 0).nodeIds := by
    rw [hg1_ids]
    exact List.mem_append_left _ (List.mem_singleton_self _)
  have hfreshP : ∀ j, 0 ≤ j → paperNodeId (r.scopus_id.getD ("prof_1")) j ∉
      (addTopics (r.scopus_id.getD ("prof_1"))
        (add_professor_node { nodes := [], edges := [] }
          (r.scopus_id.getD ("prof_1")) (r.name.getD ("Unknown")) r.image_url)
        (r.topics.getD []) 0).nodeIds := by
    intro j _
    rw [hg1_ids]
    intro hmem
    rcases List.mem_append.mp hmem with hmem1 | hmem2
    · exact paperNodeId_ne_prof _ j (List.mem_singleton.mp hmem1)
    · rcases List.mem_map.mp hmem2 with ⟨k, _, hk⟩
      exact topicNodeId_ne_paperNodeId _ _ k j hk
  have hedges1 : ∀ e ∈ (addTopics (r.scopus_id.getD ("prof_1"))
      (add_professor_node { nodes := [], edges := [] }
        (r.scopus_id.getD ("prof_1")) (r.name.getD ("Unknown")) r.image_url)
      (r.topics.getD []) 0).edges,
      e.source = r.scopus_id.getD ("prof_1") ∧ e.target ∈ (addTopics (r.scopus_id.getD ("prof_1"))
        (add_professor_node { nodes := [], edges := [] }
          (r.scopus_id.getD ("prof_1")) (r.name.getD ("Unknown")) r.image_url)
        (r.topics.getD []) 0).nodeIds := by
    intro e he
    rw [hg1_edges] at he
    rcases List.mem_map.mp he with ⟨k, hkmem, hk⟩
    subst hk
    constructor
    · rfl
    · rw [hg1_ids]
      exact List.mem_append_right _ (List.mem_map.mpr ⟨k, hkmem, rfl⟩)
  have hp := addPapers_spec (r.scopus_id.getD ("prof_1")) (r.papers.getD []) _ 0
    hpid1 hfreshP hedges1
  have hp1 := hp.1
  have hp2 := hp.2
  rw [hg1_ids] at hp1
  rw [hg1_edges] at hp2
  simp only [Nat.zero_add] at hp1 hp2
  constructor
  · rw [build_professor_graph_eq, hp1]
    simp [List.append_assoc]
  · rw [build_professor_graph_eq, hp2]

/-! ### Cache Store (`app.py` `load_scopus_cache`,
`fetch_all_scopus_data.py` `save_scopus_cache`) -/

/-! ### Lemmas about the reverse index -/

theorem bucketOf_cons (kv : String × List TopicEntry) (rest : List (String × List TopicEntry))
    (T : String) :
    bucketOf (kv :: rest) T = if kv.1 = T then kv.2 else bucketOf rest T := by
  unfold bucketOf
  simp only [lookupA]
  split <;> rfl


theorem lookupA_map_update (t : String) (e : TopicEntry) :
    ∀ (rest : List (String × List TopicEntry)) (T : String), T ≠ t →
    lookupA (rest.map (fun kv => if kv.1 = t then (kv.1, kv.2 ++ [e]) else kv)) T
      = lookupA rest T := by
  intro rest
  induction rest with
  | nil => intro T _; rfl
  | cons kv rest ih =>
    intro T hT
    simp only [List.map_cons]
    by_cases hk : kv.1 = t
    · rw [if_pos hk]
      have hne : ¬ kv.1 = T := by rw [hk]; exact fun hh => hT hh.symm
      show (if kv.1 = T then some (kv.2 ++ [e]) else
          lookupA (rest.map (fun kv => if kv.1 = t then (kv.1, kv.2 ++ [e]) else kv)) T)
        = if kv.1 = T then some kv.2 else lookupA rest T
      rw [if_neg hne, if_neg hne]
      exact ih T hT
    · rw [if_neg hk]
      show (if kv.1 = T then some kv.2 else
          lookupA (rest.map (fun kv => if kv.1 = t then (kv.1, kv.2 ++ [e]) else kv)) T)
        = if kv.1 = T then some kv.2 else lookupA rest T
      by_cases hq : kv.1 = T
      · rw [if_pos hq, if_pos hq]
      · rw [if_neg hq, if_neg hq]
        exact ih T hT


theorem bucketOf_addEntry (idx : List (String × List TopicEntry)) (t : String)
    (e : TopicEntry) (T : String) :
    bucketOf (addEntry idx t e) T
      = bucketOf idx T ++ (if t = T then [e] else []) := by
  induction idx with
  | nil =>
    unfold addEntry
    simp only [lookupA, Option.isSome_none, Bool.false_eq_true, if_false, List.nil_append]
    by_cases hTt : t = T
    · subst hTt
      simp [bucketOf, lookupA]
    · simp [bucketOf, lookupA, hTt]
  | cons kv rest ih =>
    by_cases hk : kv.1 = t
    · have hsome : (lookupA (kv :: rest) t).isSome = true := by
        simp [lookupA, hk]
      unfold addEntry
      rw [if_pos hsome]
      simp only [List.map_cons, if_pos hk]
      simp only [bucketOf_cons]
      by_cases hT : kv.1 = T
      · rw [if_pos hT, if_pos hT, if_pos (hk.symm.trans hT)]
      · rw [if_neg hT, if_neg hT]
        have hTne : T ≠ t := fun hh => hT (by rw [hk, ← hh])
        unfold bucketOf
        rw [lookupA_map_update t e rest T hTne]
        rw [if_neg (fun hh : t = T => hTne hh.symm)]
        simp
    · have hlk : lookupA (kv :: rest) t = lookupA rest t := by
        simp [lookupA, hk]
      by_cases hs : (lookupA rest t).isSome = true
      · have hsome : (lookupA (kv :: rest) t).isSome = true := by rw [hlk]; exact hs
        unfold addEntry
        rw [if_pos hsome]
        simp only [List.map_cons, if_neg hk]
        simp only [bucketOf_cons]
        by_cases hT : kv.1 = T
        · rw [if_pos hT, if_pos hT]
          have hne : ¬ t = T := fun hh => hk (hT.trans hh.symm)
          rw [if_neg hne]
          simp
        · rw [if_neg hT, if_neg hT]
          have hrest := ih
          unfold addEntry at hrest
          rw [if_pos hs] at hrest
          exact hrest
      · have hsome : ¬ (lookupA (kv :: rest) t).isSome = true := by rw [hlk]; exact hs
        unfold addEntry
        rw [if_neg hsome]
        simp only [List.cons_append, bucketOf_cons]
        by_cases hT : kv.1 = T
        · rw [if_pos hT, if_pos hT]
          have hne : ¬ t = T := fun hh => hk (hT.trans hh.symm)
          rw [if_neg hne]
          simp
        · rw [if_neg hT, if_neg hT]
          have hrest := ih
          unfold addEntry at hrest
          rw [if_neg hs] at hrest
          exact hrest


theorem mem_bucket_topicsFold (e : TopicEntry) :
    ∀ (ts : List String) (idx : List (String × List TopicEntry)) (T : String) (x : TopicEntry),
    (x ∈ bucketOf (ts.foldl (fun idx2 topic => addEntry idx2 topic e) idx) T)
      ↔ x ∈ bucketOf idx T ∨ (T ∈ ts ∧ x = e) := by
  intro ts
  induction ts with
  | nil => intro idx T x; simp
  | cons t rest ih =>
    intro idx T x
    rw [List.foldl_cons, ih, bucketOf_addEntry]
    rw [List.mem_append]
    constructor
    · rintro ((h | h) | h)
      · exact Or.inl h
      · rcases Classical.em (t = T) with hTt | hTt
        · rw [if_pos hTt] at h
          exact Or.inr ⟨by rw [← hTt]; exact List.mem_cons_self t rest, List.mem_singleton.mp h⟩
        · rw [if_neg hTt] at h
          cases h
      · exact Or.inr ⟨List.mem_cons_of_mem t h.1, h.2⟩
    · rintro (h | ⟨hmem, hx⟩)
      · exact Or.inl (Or.inl h)
      · rcases List.mem_cons.mp hmem with hTt | hTt
        · exact Or.inl (Or.inr (by rw [if_pos hTt.symm]; exact List.mem_singleton.mpr hx))
        · exact Or.inr ⟨hTt, hx⟩


theorem mem_bucket_outer :
    ∀ (profs : List (String × ProfRecord)) (idx : List (String × List TopicEntry))
      (T : String) (x : TopicEntry),
    (x ∈ bucketOf (profs.foldl
        (fun idx kv => (kv.2.topics.getD []).foldl
          (fun idx2 topic => addEntry idx2 topic (mkTopicEntry kv.1 kv.2)) idx) idx) T)
      ↔ x ∈ bucketOf idx T
        ∨ ∃ kv ∈ profs, T ∈ kv.2.topics.getD [] ∧ x = mkTopicEntry kv.1 kv.2 := by
  intro profs
  induction profs with
  | nil => intro idx T x; simp
  | cons p rest ih =>
    intro idx T x
    rw [List.foldl_cons, ih, mem_bucket_topicsFold]
    constructor
    · rintro ((h | h) | ⟨kv, hkv, hT, hx⟩)
      · exact Or.inl h
      · exact Or.inr ⟨p, List.mem_cons_self p rest, h.1, h.2⟩
      · exact Or.inr ⟨kv, List.mem_cons_of_mem p hkv, hT, hx⟩
    · rintro (h | ⟨kv, hkv, hT, hx⟩)
      · exact Or.inl (Or.inl h)
      · rcases List.mem_cons.mp hkv with hkp | hkp
        · subst hkp
          exact Or.inl (Or.inr ⟨hT, hx⟩)
        · exact Or.inr ⟨kv, hkp, hT, hx⟩


theorem mem_bucket_all_topics (profs : List (String × ProfRecord)) (T : String)
    (x : TopicEntry) :
    (x ∈ bucketOf (all_topics profs) T)
      ↔ ∃ kv ∈ profs, T ∈ kv.2.topics.getD [] ∧ x = mkTopicEntry kv.1 kv.2 := by
  unfold all_topics
  rw [mem_bucket_outer]
  simp [bucketOf, lookupA]

/-! ### Lemmas about the per-topic filter -/

theorem lookupA_of_mem_nodup {α : Type} :
    ∀ {tg : List (String × α)} {T : String} {bucket : α},
    (tg.map Prod.fst).Nodup → (T, bucket) ∈ tg → lookupA tg T = some bucket := by
  intro tg
  induction tg with
  | nil => intro T bucket _ hmem; cases hmem
  | cons kv rest ih =>
    intro T bucket hnodup hmem
    have hcons : kv.1 ∉ rest.map Prod.fst ∧ (rest.map Prod.fst).Nodup := by
      rw [List.map_cons] at hnodup
      exact List.nodup_cons.mp hnodup
    rcases List.mem_cons.mp hmem with hkv | hkv
    · rw [← hkv]
      simp [lookupA]
    · have hk : kv.1 ≠ T := by
        intro hh
        exact hcons.1 (by
          rw [hh]
          exact List.mem_map.mpr ⟨(T, bucket), hkv, rfl⟩)
      simp only [lookupA, if_neg hk]
      exact ih hcons.2 hkv


theorem sum_filter_ne_buckets :
    ∀ (tg : List (String × List Paper)) (T : String) (bucket : List Paper),
    (tg.map Prod.fst).Nodup → (T, bucket) ∈ tg →
    ((tg.filter (fun kv => decide (kv.1 ≠ T))).map (fun kv => kv.2.length)).sum + bucket.length
      = (tg.map (fun kv => kv.2.length)).sum := by
  intro tg
  induction tg with
  | nil => intro T bucket _ hmem; cases hmem
  | cons kv rest ih =>
    intro T bucket hnodup hmem
    have hcons : kv.1 ∉ rest.map Prod.fst ∧ (rest.map Prod.fst).Nodup := by
      rw [List.map_cons] at hnodup
      exact List.nodup_cons.mp hnodup
    rcases List.mem_cons.mp hmem with hkv | hkv
    · have hkey : kv.1 = T := by rw [← hkv]
      have hbucket : kv.2 = bucket := by rw [← hkv]
      have hdrop : (decide (kv.1 ≠ T)) = false := by simp [hkey]
      have hkeep : rest.filter (fun kv => decide (kv.1 ≠ T)) = rest := by
        apply List.filter_eq_self.mpr
        intro kv2 hkv2
        have hne : kv2.1 ≠ T := by
          intro hh
          exact hcons.1 (by
            rw [hkey, ← hh]
            exact List.mem_map.mpr ⟨kv2, hkv2, rfl⟩)
        simp [hne]
      rw [List.filter_cons, hdrop]
      simp only [Bool.false_eq_true, if_false]
      rw [hkeep]
      simp only [List.map_cons, List.sum_cons]
      rw [hbucket]
      omega
    · have hkey : kv.1 ≠ T := by
        intro hh
        exact hcons.1 (by
          rw [hh]
          exact List.mem_map.mpr ⟨(T, bucket), hkv, rfl⟩)
      rw [List.filter_cons]
      rw [if_pos (by simp [hkey])]
      simp only [List.map_cons, List.sum_cons]
      have := ih T bucket hcons.2 hkv
      omega


theorem length_filter_not {α : Type} (p : α → Bool) :
    ∀ (l : List α),
    (l.filter p).length + (l.filter (fun a => !p a)).length = l.length := by
  intro l
  induction l with
  | nil => rfl
  | cons a t ih =>
    rw [List.filter_cons, List.filter_cons]
    cases hp : p a
    · simp only [hp, Bool.false_eq_true, if_false, Bool.not_false, if_true, List.length_cons]
      omega
    · simp only [hp, if_true, Bool.not_true, Bool.false_eq_true, if_false, List.length_cons]
      omega

/-! ### Lemmas about the bibliographic client -/

theorem get_author_data_inv {entries : List SEntry} {a : AuthorData}
    (h : get_author_data entries = some a) :
    a.citation_count = (a.papers.map (fun p => p.citations.getD 0)).sum ∧
    a.document_count = a.papers.length := by
  simp only [get_author_data] at h
  split at h
  · injection h with hh
    subst hh
    constructor
    · show ((entries.filter (fun e => !e.hasError)).map (fun e => e.citedby.getD 0)).sum
        = (((entries.filter (fun e => !e.hasError)).map entryPaper).map
            (fun p => p.citations.getD 0)).sum
      rw [List.map_map]
      exact congrArg List.sum (List.map_congr_left fun e _ => rfl)
    · show (entries.filter (fun e => !e.hasError)).length
        = ((entries.filter (fun e => !e.hasError)).map entryPaper).length
      rw [List.length_map]
  · exact absurd h (by simp)

/-- C1 (counterexample): the claim as stated fails — for a shape-B record
(papers stored only under `topic_groups`) the Assembler does not produce
`1 + |topics| + |papers|` nodes with `|papers|` the full paper collection: it
reads only the flat `papers` key and builds a single node here. -/
theorem assembler_counts_counterexample :
    (build_professor_graph shapeBRecord).nodes.length
      ≠ 1 + (shapeBRecord.topics.getD []).length
        + (get_all_papers shapeBRecord).length := by decide

/-- C1 (amended): for every professor record, `build_professor_graph`
produces exactly `1 + |topics| + |papers_flat|` nodes and
`|topics| + |papers_flat|` edges, where `papers_flat` is the flat `papers`
list (empty when absent; the builder ignores `topic_groups`), and every edge
has the single professor node as its source. -/
theorem assembler_counts_amended (professor_data : ProfRecord) :
    (build_professor_graph professor_data).nodes.length
        = 1 + (professor_data.topics.getD []).length
          + (professor_data.papers.getD []).length ∧
    (build_professor_graph professor_data).edges.length
        = (professor_data.topics.getD []).length
          + (professor_data.papers.getD []).length ∧
    ∀ e ∈ (build_professor_graph professor_data).edges,
      e.source = professor_data.scopus_id.getD ("prof_1") := by
  have h := build_professor_graph_spec professor_data
  refine ⟨?_, ?_, ?_⟩
  · have hnodes : (build_professor_graph professor_data).nodeIds.length
        = (build_professor_graph professor_data).nodes.length := by
      simp [Graph.nodeIds]
    have hlen := congrArg List.length h.1
    rw [hnodes] at hlen
    rw [hlen]
    simp only [List.length_cons, List.length_append, List.length_map, List.length_range]
    omega
  · have hlen := congrArg List.length h.2
    rw [hlen]
    simp only [List.length_append, List.length_map, List.length_range]
  · intro e he
    rw [h.2] at he
    rcases List.mem_append.mp he with he1 | he1 <;>
      rcases List.mem_map.mp he1 with ⟨k, _, hk⟩ <;> rw [← hk] <;> rfl

/-- C2: for shape-A records (`papers` list present) the normalizer count is
the list length; for shape-B records (`topic_groups` present, no flat list)
it is the sum of the bucket sizes and the paper collection is the bucket
concatenation; with neither field it returns `0` and `[]` (total functions,
no failure). -/
theorem normalizer_count_contract :
    (∀ (r : ProfRecord) (ps : List Paper), r.papers = some ps →
      get_paper_count r = ps.length ∧ get_all_papers r = ps) ∧
    (∀ (r : ProfRecord) (tg : List (String × List Paper)),
      r.papers = none → r.topic_groups = some tg →
      get_paper_count r = (tg.map (fun kv => kv.2.length)).sum ∧
      get_all_papers r = (tg.map Prod.snd).flatten) ∧
    (∀ r : ProfRecord, r.papers = none → r.topic_groups = none →
      get_paper_count r = 0 ∧ get_all_papers r = []) := by
  refine ⟨?_, ?_, ?_⟩
  · intro r ps h
    constructor <;> simp [get_paper_count, get_all_papers, h]
  · intro r tg h1 h2
    constructor <;> simp [get_paper_count, get_all_papers, h1, h2]
  · intro r h1 h2
    constructor <;> simp [get_paper_count, get_all_papers, h1, h2]


theorem normalizer_count_contract_witness :
    (get_paper_count witnessRecord = witnessPapers.length
      ∧ get_all_papers witnessRecord = witnessPapers) ∧
    (get_paper_count shapeBRecord = (shapeBGroups.map (fun kv => kv.2.length)).sum
      ∧ get_all_papers shapeBRecord = (shapeBGroups.map Prod.snd).flatten) ∧
    (get_paper_count emptyRecord = 0 ∧ get_all_papers emptyRecord = []) :=
  ⟨normalizer_count_contract.1 witnessRecord witnessPapers rfl,
   normalizer_count_contract.2.1 shapeBRecord shapeBGroups rfl rfl,
   normalizer_count_contract.2.2 emptyRecord rfl rfl⟩

/-- C3: `add_paper_node` assigns the size `min(NODE_SIZES['paper'] +
citations // 3, 50)` with `NODE_SIZES['paper'] = 35`; the size is monotone in
the citation count and never exceeds the cap `50`. -/
theorem paper_node_size_rule (g : Graph) (paper_id title year doi : String)
    (citations citations2 : Nat) (h : citations ≤ citations2) :
    add_paper_node g paper_id title year citations doi
        = addNode g paper_id (paperNodeAttrs title citations) ∧
    NODE_SIZES ("paper") = 35 ∧
    (paperNodeAttrs title citations).size
        = min (NODE_SIZES ("paper") + citations / 3) 50 ∧
    (paperNodeAttrs title citations).size ≤ (paperNodeAttrs title citations2).size ∧
    (paperNodeAttrs title citations).size ≤ 50 := by
  refine ⟨rfl, rfl, rfl, ?_, ?_⟩
  · show min (NODE_SIZES ("paper") + citations / 3) 50
        ≤ min (NODE_SIZES ("paper") + citations2 / 3) 50
    exact min_le_min (Nat.add_le_add_left (Nat.div_le_div_right h) _) (Nat.le_refl 50)
  · exact Nat.min_le_right _ _


theorem paper_node_size_rule_witness :
    add_paper_node { nodes := [], edges := [] } ("p") ("T") ("") 50 ("")
        = addNode { nodes := [], edges := [] } ("p") (paperNodeAttrs ("T") 50) ∧
    NODE_SIZES ("paper") = 35 ∧
    (paperNodeAttrs ("T") 50).size = min (NODE_SIZES ("paper") + 50 / 3) 50 ∧
    (paperNodeAttrs ("T") 50).size ≤ (paperNodeAttrs ("T") 51).size ∧
    (paperNodeAttrs ("T") 50).size ≤ 50 :=
  paper_node_size_rule { nodes := [], edges := [] } ("p") ("T") ("") ("") 50 51
    (by decide)

/-- C4: `load_scopus_cache` returns the topic-grouped aggregate whenever that
file exists, else the flat aggregate if it exists, else the "no data" signal
(`none`), never an error. -/
theorem cache_load_contract :
    (∀ (cache_data : CacheFile) (scopusFile : Option CacheFile),
      load_scopus_cache (some cache_data) scopusFile
        = some (cache_data.professors.getD [], cache_data.metadata.getD {})) ∧
    (∀ cache_data : CacheFile,
      load_scopus_cache none (some cache_data)
        = some (cache_data.professors.getD [], cache_data.metadata.getD {})) ∧
    load_scopus_cache none none = none :=
  ⟨fun _ _ => rfl, fun _ => rfl, rfl⟩

/-- C5: for a record whose `topic_groups` contains the selected topic, the
filter yields exactly that bucket, and the "other papers" view holds exactly
the papers of the remaining buckets (their sizes sum to the full collection
minus the bucket); for a record without `topic_groups` the filter falls back
to case-insensitive substring match of the topic against the paper titles. -/
theorem topic_filter_contract :
    (∀ (prof_data : ProfRecord) (T : String) (tg : List (String × List Paper))
        (bucket : List Paper),
      prof_data.topic_groups = some tg → (tg.map Prod.fst).Nodup → (T, bucket) ∈ tg →
      filter_by_topic prof_data T
          = FilterResult.grouped bucket (tg.filter (fun kv => decide (kv.1 ≠ T))) ∧
      ((tg.filter (fun kv => decide (kv.1 ≠ T))).map (fun kv => kv.2.length)).sum
          + bucket.length
          = (tg.map (fun kv => kv.2.length)).sum) ∧
    (∀ (prof_data : ProfRecord) (T : String), prof_data.topic_groups = none →
      filter_by_topic prof_data T
          = FilterResult.flat
              ((get_all_papers prof_data).filter
                (fun p => pyInStr T (p.title.getD (""))))
              ((get_all_papers prof_data).filter
                (fun p => !pyInStr T (p.title.getD ("")))) ∧
      ((get_all_papers prof_data).filter
          (fun p => pyInStr T (p.title.getD ("")))).length
        + ((get_all_papers prof_data).filter
            (fun p => !pyInStr T (p.title.getD ("")))).length
        = (get_all_papers prof_data).length) := by
  constructor
  · intro prof_data T tg bucket htg hnodup hmem
    have hlk : lookupA tg T = some bucket := lookupA_of_mem_nodup hnodup hmem
    constructor
    · simp [filter_by_topic, htg, hlk]
    · exact sum_filter_ne_buckets tg T bucket hnodup hmem
  · intro prof_data T htg
    constructor
    · simp [filter_by_topic, htg, flatTopicFilter]
    · exact length_filter_not _ _


theorem topic_filter_contract_witness :
    (filter_by_topic shapeBRecord ("NLP")
        = FilterResult.grouped nlpBucket
            (shapeBGroups.filter (fun kv => decide (kv.1 ≠ "NLP"))) ∧
      ((shapeBGroups.filter (fun kv => decide (kv.1 ≠ "NLP"))).map
          (fun kv => kv.2.length)).sum + nlpBucket.length
        = (shapeBGroups.map (fun kv => kv.2.length)).sum) ∧
    (filter_by_topic witnessRecord ("AI")
        = FilterResult.flat
            ((get_all_papers witnessRecord).filter
              (fun p => pyInStr ("AI") (p.title.getD (""))))
            ((get_all_papers witnessRecord).filter
              (fun p => !pyInStr ("AI") (p.title.getD ("")))) ∧
      ((get_all_papers witnessRecord).filter
          (fun p => pyInStr ("AI") (p.title.getD ("")))).length
        + ((get_all_papers witnessRecord).filter
            (fun p => !pyInStr ("AI") (p.title.getD ("")))).length
        = (get_all_papers witnessRecord).length) :=
  ⟨topic_filter_contract.1 shapeBRecord ("NLP") shapeBGroups nlpBucket rfl
      (by decide) (by decide),
   topic_filter_contract.2 witnessRecord ("AI") rfl⟩

/-- C6: the Assembler is a deterministic function of the fields it reads
(`scopus_id`, `name`, `image_url`, `topics`, `papers`): two records agreeing
on them produce identical graphs, and the node identifiers are the synthetic
ids `prof`, `topic_{prof}_{i}`, `paper_{prof}_{i}` in insertion order. -/
theorem assembler_deterministic (r₁ r₂ : ProfRecord)
    (h1 : r₁.scopus_id = r₂.scopus_id) (h2 : r₁.name = r₂.name)
    (h3 : r₁.image_url = r₂.image_url) (h4 : r₁.topics = r₂.topics)
    (h5 : r₁.papers = r₂.papers) :
    build_professor_graph r₁ = build_professor_graph r₂ ∧
    (build_professor_graph r₁).nodeIds
      = r₁.scopus_id.getD ("prof_1")
        :: ((List.range (r₁.topics.getD []).length).map
              (fun k => topicNodeId (r₁.scopus_id.getD ("prof_1")) k)
          ++ (List.range (r₁.papers.getD []).length).map
              (fun k => paperNodeId (r₁.scopus_id.getD ("prof_1")) k)) := by
  refine ⟨?_, (build_professor_graph_spec r₁).1⟩
  rw [build_professor_graph_eq, build_professor_graph_eq, h1, h2, h3, h4, h5]


theorem assembler_deterministic_witness :
    build_professor_graph witnessRecord = build_professor_graph witnessRecord ∧
    (build_professor_graph witnessRecord).nodeIds
      = witnessRecord.scopus_id.getD ("prof_1")
        :: ((List.range (witnessRecord.topics.getD []).length).map
              (fun k => topicNodeId (witnessRecord.scopus_id.getD ("prof_1")) k)
          ++ (List.range (witnessRecord.papers.getD []).length).map
              (fun k => paperNodeId (witnessRecord.scopus_id.getD ("prof_1")) k)) :=
  assembler_deterministic witnessRecord witnessRecord rfl rfl rfl rfl rfl

/-- C7: every record stored by the fetch pipeline keeps its denormalized
fields consistent with its paper collection (`citation_count` is the sum of
the per-paper citations, `document_count` the number of papers), and the
aggregate metadata totals are the sums over the stored mapping. -/
theorem fetch_consistency (now : String) (cache : List (String × ProfRecord))
    (h : ∀ kv ∈ cache, fetchedFrom kv.2) :
    (∀ kv ∈ cache,
      kv.2.citation_count
          = some (((kv.2.papers.getD []).map (fun p => p.citations.getD 0)).sum) ∧
      kv.2.document_count = some ((kv.2.papers.getD []).length)) ∧
    (save_cache_metadata now cache).total_papers
        = some ((cache.map (fun kv => (kv.2.papers.getD []).length)).sum) ∧
    (save_cache_metadata now cache).total_citations
        = some ((cache.map (fun kv =>
            ((kv.2.papers.getD []).map (fun p => p.citations.getD 0)).sum)).sum) := by
  have hrec : ∀ kv ∈ cache,
      kv.2.citation_count
          = some (((kv.2.papers.getD []).map (fun p => p.citations.getD 0)).sum) ∧
      kv.2.document_count = some ((kv.2.papers.getD []).length) := by
    intro kv hkv
    rcases h kv hkv with ⟨entries, a, ha, hp, hc, hd⟩
    have hinv := get_author_data_inv ha
    rw [hp, hc, hd]
    simp only [Option.getD_some]
    exact ⟨congrArg some hinv.1, congrArg some hinv.2⟩
  refine ⟨hrec, rfl, ?_⟩
  show some ((cache.map (fun kv => kv.2.citation_count.getD 0)).sum) = _
  refine congrArg some (congrArg List.sum (List.map_congr_left ?_))
  intro kv hkv
  rw [(hrec kv hkv).1]
  rfl


theorem fetch_consistency_witness :
    (save_cache_metadata ("2026-10-12") witnessCache).total_papers
        = some ((witnessCache.map (fun kv => (kv.2.papers.getD []).length)).sum) ∧
    (save_cache_metadata ("2026-10-12") witnessCache).total_citations
        = some ((witnessCache.map (fun kv =>
            ((kv.2.papers.getD []).map (fun p => p.citations.getD 0)).sum)).sum) :=
  (fetch_consistency ("2026-10-12") witnessCache (by
    intro kv hkv
    have hk : kv = ("123", fetchedRecordW) := List.mem_singleton.mp hkv
    rw [hk]
    exact ⟨witnessEntries, witnessAuthor, by decide, rfl, rfl, rfl⟩)).2

/-- C8: the `all_topics` reverse index holds professor `P` under topic `T`
exactly when `T` occurs in `P`'s `topics` list, for every professor in the
loaded mapping. -/
theorem topic_index_iff (professors : List (String × ProfRecord)) (sid : String)
    (prof : ProfRecord) (hmem : (sid, prof) ∈ professors) (T : String) :
    (mkTopicEntry sid prof ∈ bucketOf (all_topics professors) T)
      ↔ T ∈ prof.topics.getD [] := by
  rw [mem_bucket_all_topics]
  constructor
  · rintro ⟨kv, hkv, hT, hx⟩
    have hpd := congrArg TopicEntry.prof_data hx
    rw [show (mkTopicEntry sid prof).prof_data = prof from rfl] at hpd
    rw [show (mkTopicEntry kv.1 kv.2).prof_data = kv.2 from rfl] at hpd
    rw [hpd]
    exact hT
  · intro hT
    exact ⟨(sid, prof), hmem, hT, rfl⟩


theorem topic_index_iff_witness :
    (mkTopicEntry ("123") witnessRecord
        ∈ bucketOf (all_topics [(("123" : String), witnessRecord)]) ("AI"))
      ↔ ("AI" : String) ∈ witnessRecord.topics.getD [] :=
  topic_index_iff [(("123" : String), witnessRecord)] ("123") witnessRecord
    (List.mem_singleton.mpr rfl) ("AI")

/-- C9: when a record carries both a flat `papers` list and `topic_groups`,
the normalizer uses only the flat list and ignores `topic_groups` entirely. -/
theorem flat_precedence (r : ProfRecord) (ps : List Paper)
    (tg : List (String × List Paper)) (h1 : r.papers = some ps)
    (h2 : r.topic_groups = some tg) :
    get_paper_count r = ps.length ∧ get_all_papers r = ps := by
  constructor <;> simp [get_paper_count, get_all_papers, h1]


theorem flat_precedence_witness :
    get_paper_count bothRecord = witnessPapers.length ∧
    get_all_papers bothRecord = witnessPapers :=
  flat_precedence bothRecord witnessPapers shapeBGroups rfl rfl

/-- C10: on every record, `get_paper_count` agrees with the length of
`get_all_papers`. -/
theorem count_eq_length_all_papers (professor_data : ProfRecord) :
    get_paper_count professor_data = (get_all_papers professor_data).length := by
  unfold get_paper_count get_all_papers
  cases professor_data.papers with
  | some ps => rfl
  | none =>
    cases professor_data.topic_groups with
    | some tg =>
      rw [List.length_flatten, List.map_map]
      exact congrArg List.sum (List.map_congr_left fun kv _ => rfl)
    | none => rfl
